import Mathlib

/-!
Shallow embedding of the sg3 INQUIRY codec (src/lib.rs) over lists of bytes
(`List Nat`, each element a byte value). Rust functions that can panic are
embedded with the `RustOutcome` result type, where `crash` models a Rust
panic (out-of-range slice index or a failed `unwrap`). Rust `String` values
are modelled as lists of Unicode scalar values (`List Nat`).

The VPD-83 parser of the source is written with nom 2.x macro combinators;
those combinators are embedded here with their nom semantics: parsers map an
input byte list to `done rest value`, a typed `error`, or `incomplete`
(nom `Incomplete`, raised when the input has fewer bytes than a parser
needs). `length_value!` isolates a length-prefixed subslice and turns an
`incomplete` of the inner parser into the typed error `ErrorKind.Complete`;
`many0!` stops on an inner `error` but propagates `incomplete`;
`to_result()` panics on `incomplete`.
-/

set_option maxRecDepth 20000

/-- Outcome of running a Rust function that may panic: `crash` models a panic. -/
inductive RustOutcome (α : Type) where
  | ok (a : α)
  | crash
deriving DecidableEq

/-- Error enum of src/lib.rs (`Sg3Error`); the nix payload is irrelevant here. -/
inductive NomKind where
  | Tag
  | Many0
  | Complete
deriving DecidableEq

inductive Sg3Error where
  | Nix
  | Io (msg : String)
  | Nom (k : NomKind)
deriving DecidableEq

inductive PeripheralQualifier where
  | Connected | NotConnected | Reserved | NotCapable | VS
deriving DecidableEq

inductive PeripheralDeviceType where
  | DirectAccess | SequentialAccess | Printer | Processor | WriteOnce | CdDvd
  | Obsolete | OpticalMemory | MediaChanger | StorageArrayController
  | EnclosureServices | SimplifiedDirectAccess | OpticalCardReader
  | ObjectBasedStorage | AutomationDriveInterface | Reserved
deriving DecidableEq

inductive ProtocolIdentifier where
  | Fcp | Spi | Ssa | Sbp | Srp | IScsi | Spl | Adt | Acs | Uas | Sop
  | Reserved | Unspecified
deriving DecidableEq

inductive Association where
  | AddressedLogicalUnit | TargetPort | ScsiTargetDevice | Reserved
deriving DecidableEq

inductive DesignatorType where
  | VS | T10VendorId | Eui64 | Naa | RelativeTargetPortIdentifier
  | TargetPortGroup | LogicalUnitGroup | Md5LogicalUnitIdentifier
  | ScsiNameString | ProtocolSpecificPortIdentifier | Reserved
deriving DecidableEq

/-- `to_qualifier` of src/lib.rs. -/
def to_qualifier (i : Nat) : PeripheralQualifier :=
  match i with
  | 0 => .Connected
  | 1 => .NotConnected
  | 2 => .Reserved
  | 3 => .NotCapable
  | 4 | 5 | 6 | 7 => .VS
  | _ => .Reserved

/-- `to_device_type` of src/lib.rs. -/
def to_device_type (i : Nat) : PeripheralDeviceType :=
  match i with
  | 0 => .DirectAccess
  | 1 => .SequentialAccess
  | 2 => .Printer
  | 3 => .Processor
  | 4 => .WriteOnce
  | 5 => .CdDvd
  | 6 => .Obsolete
  | 7 => .OpticalMemory
  | 8 => .MediaChanger
  | 9 | 10 | 11 => .Obsolete
  | 12 => .StorageArrayController
  | 13 => .EnclosureServices
  | 14 => .SimplifiedDirectAccess
  | 15 => .OpticalCardReader
  | 16 => .Reserved
  | 17 => .ObjectBasedStorage
  | 18 => .AutomationDriveInterface
  | _ => .Reserved

/-- `to_association` of src/lib.rs. -/
def to_association (i : Nat) : Association :=
  match i with
  | 0 => .AddressedLogicalUnit
  | 1 => .TargetPort
  | 2 => .ScsiTargetDevice
  | _ => .Reserved

/-- `to_designator_type` of src/lib.rs. -/
def to_designator_type (i : Nat) : DesignatorType :=
  match i with
  | 0 => .VS
  | 1 => .T10VendorId
  | 2 => .Eui64
  | 3 => .Naa
  | 4 => .RelativeTargetPortIdentifier
  | 5 => .TargetPortGroup
  | 6 => .LogicalUnitGroup
  | 7 => .Md5LogicalUnitIdentifier
  | 8 => .ScsiNameString
  | 9 => .ProtocolSpecificPortIdentifier
  | _ => .Reserved

/-- `to_protocol` of src/lib.rs: early return of `Reserved` when the
`piv`/`association` gate fails, then a match over the protocol code
(`0xb...0xe` is the inclusive Rust range in the source). -/
def to_protocol (ident : Nat) (assoc : Association) (piv : Nat) : ProtocolIdentifier :=
  if piv = 0 ∨ ¬(assoc = .TargetPort ∨ assoc = .ScsiTargetDevice) then .Reserved
  else
    match ident with
    | 0 => .Fcp
    | 1 => .Spi
    | 2 => .Ssa
    | 3 => .Sbp
    | 4 => .Srp
    | 5 => .IScsi
    | 6 => .Spl
    | 7 => .Adt
    | 8 => .Acs
    | 9 => .Uas
    | 10 => .Sop
    | 11 | 12 | 13 | 14 => .Reserved
    | _ => .Unspecified

/-- The protocol-code table exactly as the claim lists it (spec words, for
comparison with the table inside `to_protocol`). -/
def claimProtocolTable (code : Nat) : ProtocolIdentifier :=
  if code = 0 then .Fcp
  else if code = 1 then .Spi
  else if code = 2 then .Ssa
  else if code = 3 then .Sbp
  else if code = 4 then .Srp
  else if code = 5 then .IScsi
  else if code = 6 then .Spl
  else if code = 7 then .Adt
  else if code = 8 then .Acs
  else if code = 9 then .Uas
  else if code = 10 then .Sop
  else if code ≤ 14 then .Reserved
  else .Unspecified

/-- The slice `l[a..b]` of a byte buffer (Rust range slicing, both bounds
already checked by the caller). -/
def listSlice (a b : Nat) (l : List Nat) : List Nat :=
  (l.drop a).take (b - a)

/-- Lower bound for the second byte of a 3-byte UTF-8 sequence led by `b1`
(Rust from_utf8 validation table). -/
def utf8Lo3 (b1 : Nat) : Nat := if b1 = 0xE0 then 0xA0 else 0x80

/-- Upper bound for the second byte of a 3-byte UTF-8 sequence led by `b1`. -/
def utf8Hi3 (b1 : Nat) : Nat := if b1 = 0xED then 0x9F else 0xBF

/-- Lower bound for the second byte of a 4-byte UTF-8 sequence led by `b1`. -/
def utf8Lo4 (b1 : Nat) : Nat := if b1 = 0xF0 then 0x90 else 0x80

/-- Upper bound for the second byte of a 4-byte UTF-8 sequence led by `b1`. -/
def utf8Hi4 (b1 : Nat) : Nat := if b1 = 0xF4 then 0x8F else 0xBF

/-- Strict UTF-8 decoding as performed by Rust `str::from_utf8`, written
with a fuel parameter so the definition computes by kernel reduction; every
step consumes at least one byte, so any fuel above the list length is
enough. `none` on any invalid byte sequence, otherwise the list of decoded
scalar values. -/
def utf8DecodeAux : Nat → List Nat → Option (List Nat)
  | _, [] => some []
  | 0, _ :: _ => none
  | fuel + 1, b1 :: rest =>
    if b1 < 0x80 then
      (utf8DecodeAux fuel rest).map (b1 :: ·)
    else if 0xC2 ≤ b1 ∧ b1 ≤ 0xDF then
      match rest with
      | b2 :: rest2 =>
        if 0x80 ≤ b2 ∧ b2 ≤ 0xBF then
          (utf8DecodeAux fuel rest2).map (((b1 - 0xC0) * 0x40 + (b2 - 0x80)) :: ·)
        else none
      | [] => none
    else if 0xE0 ≤ b1 ∧ b1 ≤ 0xEF then
      match rest with
      | b2 :: b3 :: rest3 =>
        if (utf8Lo3 b1 ≤ b2 ∧ b2 ≤ utf8Hi3 b1) ∧ (0x80 ≤ b3 ∧ b3 ≤ 0xBF) then
          (utf8DecodeAux fuel rest3).map
            (((b1 - 0xE0) * 0x1000 + (b2 - 0x80) * 0x40 + (b3 - 0x80)) :: ·)
        else none
      | _ => none
    else if 0xF0 ≤ b1 ∧ b1 ≤ 0xF4 then
      match rest with
      | b2 :: b3 :: b4 :: rest4 =>
        if (utf8Lo4 b1 ≤ b2 ∧ b2 ≤ utf8Hi4 b1) ∧ (0x80 ≤ b3 ∧ b3 ≤ 0xBF)
            ∧ (0x80 ≤ b4 ∧ b4 ≤ 0xBF) then
          (utf8DecodeAux fuel rest4).map
            (((b1 - 0xF0) * 0x40000 + (b2 - 0x80) * 0x1000
              + (b3 - 0x80) * 0x40 + (b4 - 0x80)) :: ·)
        else none
      | _ => none
    else none

/-- Rust `str::from_utf8` over a byte list. -/
def utf8Decode (l : List Nat) : Option (List Nat) :=
  utf8DecodeAux (l.length + 1) l

/-- Lossy UTF-8 decoding as performed by Rust `String::from_utf8_lossy`:
total, substituting U+FFFD for each maximal invalid subpart and resuming at
the first offending byte. Fuel as in `utf8DecodeAux`. -/
def utf8LossyAux : Nat → List Nat → List Nat
  | _, [] => []
  | 0, _ :: _ => []
  | fuel + 1, b1 :: rest =>
    if b1 < 0x80 then b1 :: utf8LossyAux fuel rest
    else if 0xC2 ≤ b1 ∧ b1 ≤ 0xDF then
      match rest with
      | b2 :: rest2 =>
        if 0x80 ≤ b2 ∧ b2 ≤ 0xBF then
          ((b1 - 0xC0) * 0x40 + (b2 - 0x80)) :: utf8LossyAux fuel rest2
        else 0xFFFD :: utf8LossyAux fuel (b2 :: rest2)
      | [] => [0xFFFD]
    else if 0xE0 ≤ b1 ∧ b1 ≤ 0xEF then
      match rest with
      | b2 :: rest2 =>
        if utf8Lo3 b1 ≤ b2 ∧ b2 ≤ utf8Hi3 b1 then
          match rest2 with
          | b3 :: rest3 =>
            if 0x80 ≤ b3 ∧ b3 ≤ 0xBF then
              ((b1 - 0xE0) * 0x1000 + (b2 - 0x80) * 0x40 + (b3 - 0x80))
                :: utf8LossyAux fuel rest3
            else 0xFFFD :: utf8LossyAux fuel (b3 :: rest3)
          | [] => [0xFFFD]
        else 0xFFFD :: utf8LossyAux fuel (b2 :: rest2)
      | [] => [0xFFFD]
    else if 0xF0 ≤ b1 ∧ b1 ≤ 0xF4 then
      match rest with
      | b2 :: rest2 =>
        if utf8Lo4 b1 ≤ b2 ∧ b2 ≤ utf8Hi4 b1 then
          match rest2 with
          | b3 :: rest3 =>
            if 0x80 ≤ b3 ∧ b3 ≤ 0xBF then
              match rest3 with
              | b4 :: rest4 =>
                if 0x80 ≤ b4 ∧ b4 ≤ 0xBF then
                  ((b1 - 0xF0) * 0x40000 + (b2 - 0x80) * 0x1000
                    + (b3 - 0x80) * 0x40 + (b4 - 0x80)) :: utf8LossyAux fuel rest4
                else 0xFFFD :: utf8LossyAux fuel (b4 :: rest4)
              | [] => [0xFFFD]
            else 0xFFFD :: utf8LossyAux fuel (b3 :: rest3)
          | [] => [0xFFFD]
        else 0xFFFD :: utf8LossyAux fuel (b2 :: rest2)
      | [] => [0xFFFD]
    else 0xFFFD :: utf8LossyAux fuel rest

/-- Rust `String::from_utf8_lossy` over a byte list, as scalar values. -/
def utf8Lossy (l : List Nat) : List Nat :=
  utf8LossyAux (l.length + 1) l

/-- `slice_to_null` of src/lib.rs: the loop returns `slc[..i]` at the first
index `i` holding a zero byte, and the whole slice when no zero byte occurs
(`findIdx` returns the length in that case, and taking the length yields
the whole slice). -/
def slice_to_null (slc : List Nat) : List Nat :=
  slc.take (slc.findIdx (fun c => c == 0))

/-- The `Designator` enum of src/lib.rs; `String` carries the decoded
scalar values of the Rust string. -/
inductive Designator where
  | Binary (data : List Nat)
  | String (s : List Nat)
deriving DecidableEq

/-- `to_designator` of src/lib.rs (`0...1` and `2...3` are inclusive Rust
ranges in the source). -/
def to_designator (code : Nat) (data : List Nat) : Designator :=
  match code with
  | 0 | 1 => .Binary data
  | 2 | 3 => .String (utf8Lossy (slice_to_null data))
  | _ => .Binary data

structure DesignationDescriptor where
  protocol : ProtocolIdentifier
  association : Association
  designator_type : DesignatorType
  designator : Designator
deriving DecidableEq

structure InquiryVpd83 where
  qualifier : PeripheralQualifier
  device_type : PeripheralDeviceType
  descriptors : List DesignationDescriptor
deriving DecidableEq

/-- `StdInquiry` of src/lib.rs: the 96-byte standard inquiry buffer. -/
structure StdInquiry where
  buf : List Nat
deriving DecidableEq

namespace StdInquiry

/-- `response_data_format`: `self.buf[3] & 0x0f`. -/
def response_data_format (inq : StdInquiry) : Nat :=
  inq.buf.getD 3 0 &&& 0x0f

/-- `hi_sup`: `(self.buf[3] & 0x10) >> 5`. -/
def hi_sup (inq : StdInquiry) : Nat :=
  (inq.buf.getD 3 0 &&& 0x10) >>> 5

/-- `sync`: `(self.buf[7] & 0x10) >> 5`. -/
def sync (inq : StdInquiry) : Nat :=
  (inq.buf.getD 7 0 &&& 0x10) >>> 5

/-- `vendor`: `from_utf8(&self.buf[8..16]).unwrap()`; the slice panics when
the buffer is shorter than 16 bytes and the unwrap panics on invalid UTF-8. -/
def vendor (inq : StdInquiry) : RustOutcome (List Nat) :=
  if inq.buf.length < 16 then .crash
  else
    match utf8Decode (listSlice 8 16 inq.buf) with
    | some s => .ok s
    | none => .crash

/-- `product_id`: `from_utf8(&self.buf[16..32]).unwrap()`. -/
def product_id (inq : StdInquiry) : RustOutcome (List Nat) :=
  if inq.buf.length < 32 then .crash
  else
    match utf8Decode (listSlice 16 32 inq.buf) with
    | some s => .ok s
    | none => .crash

/-- `product_revision`: `from_utf8(&self.buf[32..36]).unwrap()`. -/
def product_revision (inq : StdInquiry) : RustOutcome (List Nat) :=
  if inq.buf.length < 36 then .crash
  else
    match utf8Decode (listSlice 32 36 inq.buf) with
    | some s => .ok s
    | none => .crash

end StdInquiry

/-- The pure tail of `inquiry` in src/lib.rs, after a successful transport
exchange: reject the buffer unless the response data format field equals 2. -/
def inquiry_post (inq : StdInquiry) : Except Sg3Error StdInquiry :=
  if inq.response_data_format ≠ 2 then
    .error (.Io "Unknown/unsupported response data format")
  else .ok inq

/-- `InquiryVpd80` of src/lib.rs: the unit serial number page buffer. -/
structure InquiryVpd80 where
  buf : List Nat
deriving DecidableEq

namespace InquiryVpd80

/-- `serial_number` of src/lib.rs:
`length = BigEndian::read_u16(&self.buf[2..4])` followed by
`from_utf8(&self.buf[4..length as usize + 3]).unwrap()`. The first slice
panics when the buffer has fewer than 4 bytes; the second slice panics when
`length + 3 < 4` or `length + 3` exceeds the buffer length; the unwrap
panics on invalid UTF-8. -/
def serial_number (inq : InquiryVpd80) : RustOutcome (List Nat) :=
  if inq.buf.length < 4 then .crash
  else
    let length := inq.buf.getD 2 0 * 256 + inq.buf.getD 3 0
    if length + 3 < 4 ∨ inq.buf.length < length + 3 then .crash
    else
      match utf8Decode (listSlice 4 (length + 3) inq.buf) with
      | some s => .ok s
      | none => .crash

end InquiryVpd80

/-- The 6-byte CDB built by `inquiry_vpd` in src/lib.rs: opcode 0x12, EVPD
bit, page code, big-endian 16-bit allocation length (`buf.len() as u16`),
final byte zero. -/
def inquiry_vpd_cmd (vpd : Nat) (bufLen : Nat) : List Nat :=
  [0x12, 1, vpd, (bufLen % 65536) / 256, (bufLen % 65536) % 256, 0]

/-- The CDB sent by `inquiry_vpd_83`, which passes a 1024-byte buffer. -/
def inquiry_vpd_83_cmd : List Nat :=
  inquiry_vpd_cmd 0x83 1024

/-- Result of a nom 2.x parser on a byte list: `done` with the unconsumed
rest, a typed `error`, or `incomplete` (nom `Incomplete`; the needed-size
payload is irrelevant to every property proved here and is dropped). -/
inductive NomResult (α : Type) where
  | done (rest : List Nat) (val : α)
  | error (e : NomKind)
  | incomplete
deriving DecidableEq

/-- Sequencing of nom parsers, as generated by the `do_parse!` macro:
errors and incomplete results propagate. -/
def nbind {α β : Type} (r : NomResult α) (f : List Nat → α → NomResult β) : NomResult β :=
  match r with
  | .done rest v => f rest v
  | .error e => .error e
  | .incomplete => .incomplete

/-- nom `take!(n)`: `n` bytes, `Incomplete` when fewer remain. -/
def takeP (n : Nat) (input : List Nat) : NomResult (List Nat) :=
  if input.length < n then .incomplete
  else .done (input.drop n) (input.take n)

/-- nom `be_u8`. -/
def beU8 (input : List Nat) : NomResult Nat :=
  match input with
  | b :: rest => .done rest b
  | [] => .incomplete

/-- nom `be_u16`: big-endian 16-bit value. -/
def beU16 (input : List Nat) : NomResult Nat :=
  match input with
  | b1 :: b2 :: rest => .done rest (b1 * 256 + b2)
  | _ => .incomplete

/-- nom `tag!`: `Incomplete` when the input is shorter than the tag,
`ErrorKind::Tag` on mismatch. -/
def tagP (t : List Nat) (input : List Nat) : NomResult (List Nat) :=
  if input.length < t.length then .incomplete
  else if input.take t.length = t then .done (input.drop t.length) t
  else .error .Tag

/-- `dd_byte0` of src/lib.rs: `bits!(pair!(take_bits!(u8,4), take_bits!(u8,4)))`
consumes one byte and yields its high and low nibble. -/
def dd_byte0 (input : List Nat) : NomResult (Nat × Nat) :=
  match input with
  | b :: rest => .done rest ((b % 256) >>> 4, b % 16)
  | [] => .incomplete

/-- `dd_byte1` of src/lib.rs: one byte split into bit 7, bit 6, bits 5 to 4
and bits 3 to 0. -/
def dd_byte1 (input : List Nat) : NomResult (Nat × Nat × Nat × Nat) :=
  match input with
  | b :: rest => .done rest ((b % 256) >>> 7, ((b % 256) >>> 6) % 2, ((b % 256) >>> 4) % 4, b % 16)
  | [] => .incomplete

/-- `periph` of src/lib.rs: one byte split into its top 3 and bottom 5 bits. -/
def periph (input : List Nat) : NomResult (Nat × Nat) :=
  match input with
  | b :: rest => .done rest ((b % 256) >>> 5, b % 32)
  | [] => .incomplete

/-- `des_desc` of src/lib.rs: one designation descriptor, as the `do_parse!`
chain `dd_byte0 >> dd_byte1 >> take!(1) >> length: be_u8 >>
designator: take!(length) >> (DesignationDescriptor { .. })`. -/
def des_desc (input : List Nat) : NomResult DesignationDescriptor :=
  nbind (dd_byte0 input) fun i1 byte0 =>
  nbind (dd_byte1 i1) fun i2 byte1 =>
  nbind (takeP 1 i2) fun i3 _ =>
  nbind (beU8 i3) fun i4 length =>
  nbind (takeP length i4) fun i5 designator =>
  .done i5
    { protocol := to_protocol byte0.1 (to_association byte1.2.2.1) byte1.1
      association := to_association byte1.2.2.1
      designator_type := to_designator_type byte1.2.2.2
      designator := to_designator byte0.2 designator }

/-- nom `many0!` (nom 2.x loop), with explicit fuel: an empty input ends the
loop; an inner error ends the loop keeping the results so far; an inner
`Incomplete` is propagated; an inner success that consumed nothing is the
error `ErrorKind::Many0`. Every iteration consumes at least one byte, so
any fuel above the input length is enough. -/
def many0Aux {α : Type} (p : List Nat → NomResult α) : Nat → List Nat → NomResult (List α)
  | 0, _ => .incomplete
  | fuel + 1, input =>
    if input = [] then .done input []
    else
      match p input with
      | .error _ => .done input []
      | .incomplete => .incomplete
      | .done rest v =>
        if rest.length < input.length then
          match many0Aux p fuel rest with
          | .done r vs => .done r (v :: vs)
          | .error e => .error e
          | .incomplete => .incomplete
        else .error .Many0

/-- nom `many0!`. -/
def many0 {α : Type} (p : List Nat → NomResult α) (input : List Nat) : NomResult (List α) :=
  many0Aux p (input.length + 1) input

/-- `des_descs` of src/lib.rs: `many0!(des_desc)`. -/
def des_descs (input : List Nat) : NomResult (List DesignationDescriptor) :=
  many0 des_desc input

/-- nom `length_value!`: parse a length with the first parser, take that
many bytes (`Incomplete` when fewer remain), and run the second parser on
that subslice alone; what the inner parser leaves unconsumed is dropped,
and an inner `Incomplete` becomes the typed error `ErrorKind::Complete`. -/
def lengthValue {α : Type} (lenP : List Nat → NomResult Nat)
    (inner : List Nat → NomResult α) (input : List Nat) : NomResult α :=
  match lenP input with
  | .error e => .error e
  | .incomplete => .incomplete
  | .done i1 n =>
    if i1.length < n then .incomplete
    else
      match inner (i1.take n) with
      | .done _ o2 => .done (i1.drop n) o2
      | .error e => .error e
      | .incomplete => .error .Complete

/-- `vpd83` of src/lib.rs: `periph >> tag!(&[0x83]) >>
descs: length_value!(be_u16, des_descs) >> (InquiryVpd83 { .. })`. -/
def vpd83 (input : List Nat) : NomResult InquiryVpd83 :=
  nbind (periph input) fun i1 per =>
  nbind (tagP [0x83] i1) fun i2 _ =>
  nbind (lengthValue beU16 des_descs i2) fun i3 descs =>
  .done i3
    { qualifier := to_qualifier per.1
      device_type := to_device_type per.2
      descriptors := descs }

/-- nom `IResult::to_result()`: `Done` and `Error` are turned into a
`Result`; on `Incomplete` the method panics. -/
def to_result {α : Type} (r : NomResult α) : RustOutcome (Except NomKind α) :=
  match r with
  | .done _ o => .ok (.ok o)
  | .error e => .ok (.error e)
  | .incomplete => .crash

/-- The pure tail of `inquiry_vpd_83` in src/lib.rs after the transport
filled the 1024-byte buffer: `try!(vpd83(&inquiry).to_result())`, with the
nom error converted into `Sg3Error::Nom`. -/
def inquiry_vpd_83_parse (buf : List Nat) : RustOutcome (Except Sg3Error InquiryVpd83) :=
  match to_result (vpd83 buf) with
  | .ok (.ok v) => .ok (.ok v)
  | .ok (.error e) => .ok (.error (.Nom e))
  | .crash => .crash

/-- A byte list that is a concatenation of complete designation
descriptors: each one is a 4-byte fixed part whose fourth byte is the
payload length, followed by exactly that many payload bytes. -/
inductive ParsesAsDescs : List Nat → Prop where
  | nil : ParsesAsDescs []
  | cons (d0 d1 d2 l : Nat) (payload rest : List Nat)
      (hlen : payload.length = l) (h : ParsesAsDescs rest) :
      ParsesAsDescs (d0 :: d1 :: d2 :: l :: (payload ++ rest))

/-! ## Helper lemmas -/

theorem slice_to_null_eq_takeWhile (l : List Nat) :
    slice_to_null l = l.takeWhile (fun b => b != 0) := by
  induction l with
  | nil => rfl
  | cons a l ih =>
    unfold slice_to_null at *
    rw [List.findIdx_cons, List.takeWhile_cons]
    by_cases ha : a = 0
    · subst ha; simp
    · have hb : (a == 0) = false := by simp [ha]
      have hb2 : (a != 0) = true := by simp [ha]
      rw [hb, hb2]
      simp only [cond_false, if_true, List.take_succ_cons]
      rw [ih]

theorem many0Aux_fuel_irrel {α : Type} (p : List Nat → NomResult α) :
    ∀ f1 f2 input, input.length < f1 → input.length < f2 →
      many0Aux p f1 input = many0Aux p f2 input := by
  intro f1
  induction f1 with
  | zero => intro f2 input h1 _; exact absurd h1 (Nat.not_lt_zero _)
  | succ g ih =>
    intro f2 input h1 h2
    cases f2 with
    | zero => exact absurd h2 (Nat.not_lt_zero _)
    | succ m =>
      simp only [many0Aux]
      by_cases he : input = []
      · simp [he]
      · simp only [he, if_false]
        cases hp : p input with
        | error e => rfl
        | incomplete => rfl
        | done rest v =>
          by_cases hlt : rest.length < input.length
          · simp only [hlt, if_true]
            rw [ih m rest (by omega) (by omega)]
          · simp [hlt]

theorem many0_step_incomplete {α : Type} (p : List Nat → NomResult α) (input : List Nat)
    (hne : input ≠ []) (hp : p input = .incomplete) : many0 p input = .incomplete := by
  unfold many0
  simp only [many0Aux]
  simp [hne, hp]

theorem many0_step_done {α : Type} (p : List Nat → NomResult α) (input rest : List Nat)
    (v : α) (hne : input ≠ []) (hp : p input = .done rest v)
    (hlt : rest.length < input.length) :
    many0 p input = (match many0 p rest with
      | .done r vs => .done r (v :: vs)
      | .error e => .error e
      | .incomplete => .incomplete) := by
  have key : many0Aux p (input.length + 1) input
      = (match many0Aux p input.length rest with
        | .done r vs => .done r (v :: vs)
        | .error e => .error e
        | .incomplete => .incomplete) := by
    simp only [many0Aux]
    simp only [hne, if_false, hp, hlt, if_true]
  calc many0 p input = many0Aux p (input.length + 1) input := rfl
    _ = (match many0Aux p input.length rest with
        | .done r vs => .done r (v :: vs)
        | .error e => .error e
        | .incomplete => .incomplete) := key
    _ = (match many0Aux p (rest.length + 1) rest with
        | .done r vs => .done r (v :: vs)
        | .error e => .error e
        | .incomplete => .incomplete) := by
          rw [many0Aux_fuel_irrel p input.length (rest.length + 1) rest hlt
            (Nat.lt_succ_self _)]
    _ = (match many0 p rest with
        | .done r vs => .done r (v :: vs)
        | .error e => .error e
        | .incomplete => .incomplete) := rfl

theorem des_desc_done (d0 d1 d2 : Nat) (payload tail : List Nat) :
    des_desc (d0 :: d1 :: d2 :: payload.length :: (payload ++ tail)) =
      .done tail
        { protocol := to_protocol ((d0 % 256) >>> 4)
            (to_association (((d1 % 256) >>> 4) % 4)) ((d1 % 256) >>> 7)
          association := to_association (((d1 % 256) >>> 4) % 4)
          designator_type := to_designator_type (d1 % 16)
          designator := to_designator (d0 % 16) payload } := by
  have hge : ¬ ((payload ++ tail).length < payload.length) := by
    simp [List.length_append]
  unfold des_desc dd_byte0 dd_byte1 nbind takeP beU8
  simp [hge, List.take_left, List.drop_left]

theorem des_desc_trunc (d0 d1 d2 L : Nat) (p : List Nat) (hp : p.length < L) :
    des_desc (d0 :: d1 :: d2 :: L :: p) = .incomplete := by
  unfold des_desc dd_byte0 dd_byte1 nbind takeP beU8
  simp [hp]

theorem many0_descs_append_incomplete (pre suffix : List Nat)
    (hpre : ParsesAsDescs pre)
    (hinc : many0 des_desc suffix = .incomplete) :
    many0 des_desc (pre ++ suffix) = .incomplete := by
  induction hpre with
  | nil => simpa using hinc
  | cons d0 d1 d2 l payload rest hlen hr ih =>
    subst hlen
    have heq : (d0 :: d1 :: d2 :: payload.length :: (payload ++ rest)) ++ suffix
        = d0 :: d1 :: d2 :: payload.length :: (payload ++ (rest ++ suffix)) := by simp
    rw [heq]
    rw [many0_step_done des_desc _ _ _ (by simp)
      (des_desc_done d0 d1 d2 payload (rest ++ suffix))
      (by simp [List.length_append]; omega)]
    rw [ih]

theorem tagP_single (b : Nat) (l : List Nat) : tagP [b] (b :: l) = .done l [b] := by
  unfold tagP
  simp

/-! ## Claim theorems -/

/-- Claim C1: for every VPD-83 buffer whose 4-byte header is intact
(page byte 0x83, declared descriptor-region length within the buffer), if
some descriptor inside the region (reached after a prefix of complete
descriptors) declares a payload length `L` with fewer than `L` bytes
remaining in the region, the whole `vpd83` parse fails with the single
typed error `ErrorKind::Complete` (surfaced by `inquiry_vpd_83` as
`Sg3Error::Nom`, the Truncated error of the spec) and no partial
descriptor sequence is returned. -/
theorem vpd83_truncated_descriptor_all_or_nothing
    (b0 n1 n0 d0 d1 d2 L : Nat) (rest pre p : List Nat)
    (hN : n1 * 256 + n0 ≤ rest.length)
    (hregion : rest.take (n1 * 256 + n0) = pre ++ d0 :: d1 :: d2 :: L :: p)
    (hpre : ParsesAsDescs pre)
    (hp : p.length < L) :
    vpd83 (b0 :: 0x83 :: n1 :: n0 :: rest) = .error .Complete
    ∧ inquiry_vpd_83_parse (b0 :: 0x83 :: n1 :: n0 :: rest)
        = .ok (.error (.Nom .Complete)) := by
  have hsuf : many0 des_desc (d0 :: d1 :: d2 :: L :: p) = .incomplete :=
    many0_step_incomplete _ _ (by simp) (des_desc_trunc d0 d1 d2 L p hp)
  have hin : many0 des_desc (rest.take (n1 * 256 + n0)) = .incomplete := by
    rw [hregion]
    exact many0_descs_append_incomplete _ _ hpre hsuf
  have htag : tagP [0x83] (0x83 :: n1 :: n0 :: rest) = .done (n1 :: n0 :: rest) [0x83] :=
    tagP_single 0x83 _
  have hbe : beU16 (n1 :: n0 :: rest) = .done rest (n1 * 256 + n0) := rfl
  have hnl : ¬ (rest.length < n1 * 256 + n0) := Nat.not_lt.mpr hN
  have hmain : vpd83 (b0 :: 0x83 :: n1 :: n0 :: rest) = .error .Complete := by
    unfold vpd83 nbind lengthValue des_descs
    simp only [periph, htag, hbe, hnl, if_false, hin]
  refine ⟨hmain, ?_⟩
  unfold inquiry_vpd_83_parse to_result
  rw [hmain]

theorem vpd83_truncated_descriptor_all_or_nothing_witness :
    (0 * 256 + 8 ≤ ([0x00, 0x81, 0x00, 0x05, 0x41, 0x42, 0x00, 0x00] : List Nat).length
      ∧ ([0x00, 0x81, 0x00, 0x05, 0x41, 0x42, 0x00, 0x00] : List Nat).take (0 * 256 + 8)
          = [] ++ 0x00 :: 0x81 :: 0x00 :: 0x05 :: [0x41, 0x42, 0x00, 0x00]
      ∧ ([0x41, 0x42, 0x00, 0x00] : List Nat).length < 0x05)
    ∧ inquiry_vpd_83_parse
        [0x00, 0x83, 0x00, 0x08, 0x00, 0x81, 0x00, 0x05, 0x41, 0x42, 0x00, 0x00]
        = .ok (.error (.Nom .Complete)) :=
  ⟨by decide,
    (vpd83_truncated_descriptor_all_or_nothing 0 0 8 0 0x81 0 5
      [0x00, 0x81, 0x00, 0x05, 0x41, 0x42, 0x00, 0x00] [] [0x41, 0x42, 0x00, 0x00]
      (by decide) (by decide) .nil (by decide)).2⟩

/-- Claim C2 (code bug): on the spec example buffer, whose declared length
is 5 with bytes 4..9 spelling HELLO, `serial_number` returns the four bytes
HELL rather than the five declared bytes: the source slices
`buf[4..length + 3]`, one byte short of `buf[4..length + 4]`. -/
theorem serial_number_hello_off_by_one :
    (InquiryVpd80.mk ([0, 0, 0x00, 0x05, 72, 69, 76, 76, 79] ++ List.replicate 87 0)).serial_number
        = .ok [72, 69, 76, 76]
    ∧ (InquiryVpd80.mk ([0, 0, 0x00, 0x05, 72, 69, 76, 76, 79] ++ List.replicate 87 0)).serial_number
        ≠ .ok [72, 69, 76, 76, 79] := by decide

/-- Claim C3 counterexample: a 96-byte VPD-80 buffer declaring serial
length 256 makes the accessor panic (`crash`); it does not return any
value, so it cannot return an OutOfBounds error. -/
theorem serial_number_oob_panics_cex :
    (InquiryVpd80.mk ([0, 0, 1, 0] ++ List.replicate 92 0)).serial_number = .crash := by
  decide

/-- Claim C3 amended: `serial_number` performs no bound check; whenever the
declared big-endian length at bytes 2..3 satisfies
`buffer length < length + 3` (which the slice `buf[4..length + 3]` of the
source requires, one less than the claimed `length + 4` bound), the access
panics instead of returning a typed error. -/
theorem serial_number_oob_crashes (buf : List Nat)
    (h : buf.length < buf.getD 2 0 * 256 + buf.getD 3 0 + 3) :
    (InquiryVpd80.mk buf).serial_number = .crash := by
  unfold InquiryVpd80.serial_number
  rcases Nat.lt_or_ge buf.length 4 with h4 | h4
  · rw [if_pos h4]
  · rw [if_neg (Nat.not_lt.mpr h4)]
    simp only []
    rw [if_pos (Or.inr h)]

theorem serial_number_oob_crashes_witness :
    ([0, 0, 0xFF, 0xFF] ++ List.replicate 92 (0 : Nat)).length
        < ([0, 0, 0xFF, 0xFF] ++ List.replicate 92 (0 : Nat)).getD 2 0 * 256
          + ([0, 0, 0xFF, 0xFF] ++ List.replicate 92 (0 : Nat)).getD 3 0 + 3
    ∧ (InquiryVpd80.mk ([0, 0, 0xFF, 0xFF] ++ List.replicate 92 0)).serial_number = .crash :=
  ⟨by decide, serial_number_oob_crashes _ (by decide)⟩

/-- Claim C4 counterexample: on the spec example buffer the parse does not
succeed. With header `[0x00, 0x83, 0x00, 0x08]` the declared descriptor
region is 8 bytes, so the 6-byte descriptor leaves 2 stray bytes inside the
region and `vpd83` fails with `ErrorKind::Complete` (zero-padded transport
buffer) or stays incomplete (bare 10-byte buffer); moreover byte 1 = 0x81
has association bits 00, which decodes to AddressedLogicalUnit, not
TargetPort. -/
theorem vpd83_spec_example_fails_cex :
    vpd83 [0x00, 0x83, 0x00, 0x08, 0x00, 0x81, 0x00, 0x02, 0x41, 0x42, 0x00, 0x00]
        = .error .Complete
    ∧ vpd83 [0x00, 0x83, 0x00, 0x08, 0x00, 0x81, 0x00, 0x02, 0x41, 0x42] = .incomplete
    ∧ to_association (((0x81 % 256) >>> 4) % 4) = .AddressedLogicalUnit := by decide

/-- Claim C4 amended: with the declared descriptor-region length corrected
to 6, parsing the buffer with header `[0x00, 0x83, 0x00, 0x06]` and the
single descriptor `[0x00, 0x81, 0x00, 0x02, 0x41, 0x42]` succeeds and
yields exactly one DesignationDescriptor; its PIV bit is read as 1
(second clause), but byte 1 = 0x81 carries association bits 00, so the
association is AddressedLogicalUnit and the protocol gate therefore
resolves the protocol to Reserved; the designator payload is
Binary [0x41, 0x42]. -/
theorem vpd83_example_amended :
    vpd83 [0x00, 0x83, 0x00, 0x06, 0x00, 0x81, 0x00, 0x02, 0x41, 0x42]
        = .done []
          { qualifier := .Connected
            device_type := .DirectAccess
            descriptors := [{ protocol := .Reserved
                              association := .AddressedLogicalUnit
                              designator_type := .T10VendorId
                              designator := .Binary [0x41, 0x42] }] }
    ∧ dd_byte1 [0x81] = .done [] (1, 0, 0, 1) := by decide

/-- Claim C5: `to_protocol` returns Reserved for every code whenever
`piv = 0` or the association is neither TargetPort nor ScsiTargetDevice;
when the gate passes it realises exactly the table of the claim
(`claimProtocolTable`): 0 Fcp, 1 Spi, 2 Ssa, 3 Sbp, 4 Srp, 5 IScsi, 6 Spl,
7 Adt, 8 Acs, 9 Uas, 0xa Sop, 0xb to 0xe Reserved, 0xf and above
Unspecified. -/
theorem to_protocol_gate_and_table (code : Nat) (assoc : Association) (piv : Nat) :
    ((piv = 0 ∨ (assoc ≠ .TargetPort ∧ assoc ≠ .ScsiTargetDevice)) →
        to_protocol code assoc piv = .Reserved)
    ∧ (piv ≠ 0 → (assoc = .TargetPort ∨ assoc = .ScsiTargetDevice) →
        to_protocol code assoc piv = claimProtocolTable code) := by
  constructor
  · intro h
    have hc : piv = 0 ∨ ¬(assoc = .TargetPort ∨ assoc = .ScsiTargetDevice) := by tauto
    unfold to_protocol
    rw [if_pos hc]
  · intro hpiv hassoc
    have hc : ¬(piv = 0 ∨ ¬(assoc = .TargetPort ∨ assoc = .ScsiTargetDevice)) := by tauto
    unfold to_protocol
    rw [if_neg hc]
    rcases code with _|_|_|_|_|_|_|_|_|_|_|_|_|_|_|code <;> rfl

theorem to_protocol_gate_and_table_witness :
    to_protocol 0 .TargetPort 1 = .Fcp
    ∧ to_protocol 0xa .ScsiTargetDevice 1 = .Sop
    ∧ to_protocol 0x10 .TargetPort 1 = .Unspecified
    ∧ to_protocol 7 .TargetPort 0 = .Reserved
    ∧ to_protocol 3 .AddressedLogicalUnit 1 = .Reserved := by
  refine ⟨?_, ?_, ?_, ?_, ?_⟩
  · rw [(to_protocol_gate_and_table 0 .TargetPort 1).2 (by decide) (Or.inl rfl)]; decide
  · rw [(to_protocol_gate_and_table 0xa .ScsiTargetDevice 1).2 (by decide) (Or.inr rfl)]; decide
  · rw [(to_protocol_gate_and_table 0x10 .TargetPort 1).2 (by decide) (Or.inl rfl)]; decide
  · exact (to_protocol_gate_and_table 7 .TargetPort 0).1 (Or.inl rfl)
  · exact (to_protocol_gate_and_table 3 .AddressedLogicalUnit 1).1 (Or.inr (by decide))

/-- Claim C6 counterexample: a 96-byte standard-inquiry buffer whose
vendor range starts with the invalid UTF-8 byte 0xFF makes `vendor` panic
(the source unwraps the from_utf8 result); it does not return a typed
decode error. -/
theorem vendor_invalid_utf8_panics_cex :
    (StdInquiry.mk (List.replicate 8 0 ++ 0xFF :: List.replicate 87 0)).vendor = .crash := by
  decide

/-- Claim C6 amended: on buffers of at least 36 bytes, each fixed-width
text accessor panics exactly when its byte range is not valid UTF-8, and
when the range is valid UTF-8 it returns exactly those bytes decoded —
no characters are ever substituted. -/
theorem std_text_accessors_utf8 (inq : StdInquiry) (h : 36 ≤ inq.buf.length) :
    (inq.vendor = .crash ↔ utf8Decode (listSlice 8 16 inq.buf) = none)
    ∧ (∀ s, utf8Decode (listSlice 8 16 inq.buf) = some s → inq.vendor = .ok s)
    ∧ (inq.product_id = .crash ↔ utf8Decode (listSlice 16 32 inq.buf) = none)
    ∧ (∀ s, utf8Decode (listSlice 16 32 inq.buf) = some s → inq.product_id = .ok s)
    ∧ (inq.product_revision = .crash ↔ utf8Decode (listSlice 32 36 inq.buf) = none)
    ∧ (∀ s, utf8Decode (listSlice 32 36 inq.buf) = some s → inq.product_revision = .ok s) := by
  unfold StdInquiry.vendor StdInquiry.product_id StdInquiry.product_revision
  refine ⟨?_, ?_, ?_, ?_, ?_, ?_⟩ <;>
    [skip; intro s hs; skip; intro s hs; skip; intro s hs] <;>
    rw [if_neg (by omega)] <;>
    first
    | (rw [hs])
    | (cases hu : utf8Decode (listSlice 8 16 inq.buf) <;> simp [hu])
    | (cases hu : utf8Decode (listSlice 16 32 inq.buf) <;> simp [hu])
    | (cases hu : utf8Decode (listSlice 32 36 inq.buf) <;> simp [hu])

theorem std_text_accessors_utf8_witness :
    36 ≤ (List.replicate 96 (65 : Nat)).length
    ∧ (StdInquiry.mk (List.replicate 96 65)).vendor = .ok (List.replicate 8 65) :=
  ⟨by decide, (std_text_accessors_utf8 (StdInquiry.mk (List.replicate 96 65))
      (by decide)).2.1 _ (by decide)⟩

/-- Claim C7: after a successful transport exchange, `inquiry` returns its
unsupported-format error (`Sg3Error::Io` with that message — the
UnsupportedFormat error of the spec) exactly when the response data format
field, the low 4 bits of byte 3, differs from 2, and returns the parsed
StdInquiry otherwise. -/
theorem inquiry_format_check (inq : StdInquiry) :
    (inquiry_post inq = .error (.Io "Unknown/unsupported response data format")
        ↔ inq.response_data_format ≠ 2)
    ∧ (inq.response_data_format = 2 → inquiry_post inq = .ok inq) := by
  by_cases h : inq.response_data_format = 2 <;> simp [inquiry_post, h]

theorem inquiry_format_check_witness :
    inquiry_post (StdInquiry.mk ([0, 0, 0, 3] ++ List.replicate 92 0))
        = .error (.Io "Unknown/unsupported response data format")
    ∧ inquiry_post (StdInquiry.mk ([0, 0, 0, 2] ++ List.replicate 92 0))
        = .ok (StdInquiry.mk ([0, 0, 0, 2] ++ List.replicate 92 0)) :=
  ⟨(inquiry_format_check _).1.mpr (by decide), (inquiry_format_check _).2 (by decide)⟩

/-- Claim C8: `to_designator` resolves code-set codes 2 and 3 to a String
designator obtained by truncating the payload at the first NUL (taking all
bytes when there is none, as the takeWhile form states) and decoding
lossily with replacement characters, and resolves every other code to a
Binary designator holding a copy of the payload bytes. -/
theorem to_designator_code_set_split (code : Nat) (data : List Nat) :
    ((code = 2 ∨ code = 3) →
        to_designator code data = .String (utf8Lossy (data.takeWhile (fun b => b != 0))))
    ∧ (¬(code = 2 ∨ code = 3) → to_designator code data = .Binary data) := by
  constructor
  · rw [← slice_to_null_eq_takeWhile]
    rintro (rfl | rfl) <;> rfl
  · intro h
    rcases code with _|_|_|_|code
    · rfl
    · rfl
    · exact absurd (Or.inl rfl) h
    · exact absurd (Or.inr rfl) h
    · rfl

theorem to_designator_code_set_split_witness :
    to_designator 2 [0x41, 0xFF, 0x42, 0x00, 0x43] = .String [0x41, 0xFFFD, 0x42]
    ∧ to_designator 5 [1, 2] = .Binary [1, 2] := by
  constructor
  · rw [(to_designator_code_set_split 2 [0x41, 0xFF, 0x42, 0x00, 0x43]).1 (Or.inl rfl)]
    decide
  · exact (to_designator_code_set_split 5 [1, 2]).2 (by decide)

/-- Claim C9: the VPD CDB for page 0x83 with allocation length 1024, as
built by `inquiry_vpd` for `inquiry_vpd_83`, is exactly
`[0x12, 1, 0x83, 0x04, 0x00, 0]`. -/
theorem inquiry_vpd_83_cdb_bytes :
    inquiry_vpd_cmd 0x83 1024 = [0x12, 1, 0x83, 0x04, 0x00, 0]
    ∧ inquiry_vpd_83_cmd = [0x12, 1, 0x83, 0x04, 0x00, 0] := by decide

/-- Claim C10: on every 96-byte buffer, `hi_sup` and `sync` return 0
whatever the contents: both mask their byte with 0x10 and shift right by
5, shifting the masked bit out. -/
theorem hi_sup_sync_always_zero (inq : StdInquiry) (h : inq.buf.length = 96) :
    inq.hi_sup = 0 ∧ inq.sync = 0 := by
  constructor <;>
  · simp only [StdInquiry.hi_sup, StdInquiry.sync]
    rw [Nat.shiftRight_eq_div_pow]
    exact Nat.div_eq_of_lt (lt_of_le_of_lt Nat.and_le_right (by norm_num))

theorem hi_sup_sync_always_zero_witness :
    (StdInquiry.mk (List.replicate 96 0xFF)).buf.length = 96
    ∧ (StdInquiry.mk (List.replicate 96 0xFF)).hi_sup = 0
    ∧ (StdInquiry.mk (List.replicate 96 0xFF)).sync = 0 :=
  ⟨by decide, (hi_sup_sync_always_zero _ (by decide)).1,
    (hi_sup_sync_always_zero _ (by decide)).2⟩
